import Mathlib

/-!
Shallow embedding of the quiz engine in `src/app.js`.

JavaScript numbers used by the engine (indices, seconds) are modelled as
`Int`; the pass threshold and the score percentage are modelled as `ℚ`.
A possibly-`undefined` number is `Option Int`.  The JS truthiness default
`x || d` on numbers (which replaces both `undefined` and `0` by `d`) is
`jsOrInt` / `jsOrRat`, while the nullish default `x ?? d` keeps `0` and is
an `Option` match.  The `answers` object (a string-keyed map) is an
association list whose update rewrites an existing key in place.
-/

/-- JS `x || d` for a possibly-undefined number: `undefined` and `0` are falsy. -/
def jsOrInt (v : Option Int) (d : Int) : Int :=
  match v with
  | none => d
  | some x => if x = 0 then d else x

/-- JS `x || d` for a possibly-undefined fractional number. -/
def jsOrRat (v : Option ℚ) (d : ℚ) : ℚ :=
  match v with
  | none => d
  | some x => if x = 0 then d else x

/-- Raw quiz item as it appears in the fetched question-set document. -/
structure QData where
  id : String
  text : String
  options : List String
  correctIndex : Int
  topic : Option String
deriving DecidableEq, Repr

/-- `class Question`: immutable record built by the `Question` constructor. -/
structure Question where
  id : String
  text : String
  options : List String
  correctIndex : Int
  topic : Option String
deriving DecidableEq, Repr

/-- The `Question` constructor: copies the fields; `topic` gets the JS
default `q.topic || null` (an absent or empty-string topic becomes null). -/
def Question.ofData (q : QData) : Question :=
  { id := q.id
    text := q.text
    options := q.options
    correctIndex := q.correctIndex
    topic := match q.topic with
      | some t => if t = "" then none else some t
      | none => none }

/-- `Question.isCorrect(idx)`: true iff the (possibly absent) selection
strictly equals `correctIndex`; `undefined === n` is false. -/
def Question.isCorrect (q : Question) (idx : Option Int) : Bool :=
  decide (idx = some q.correctIndex)

/-- The quiz definition document `{title, timeLimitSec, passThreshold, questions}`.
`timeLimitSec` and `passThreshold` may be absent (`none`). -/
structure QuizDef where
  title : String
  timeLimitSec : Option Int
  passThreshold : Option ℚ
  questions : List QData
deriving DecidableEq

/-- Lookup in the `answers` object: first binding of the key, if any. -/
def getAns : List (String × Int) → String → Option Int
  | [], _ => none
  | (k, v) :: rest, key => if k = key then some v else getAns rest key

/-- Assignment `answers[key] = v` on the `answers` object: rewrite the
existing binding in place, or append a new one. -/
def setAns : List (String × Int) → String → Int → List (String × Int)
  | [], key, v => [(key, v)]
  | (k, w) :: rest, key, v =>
      if k = key then (key, v) :: rest else (k, w) :: setAns rest key v

/-- The summary object built by `finish()`. -/
structure Summary where
  correct : Nat
  total : Nat
  percent : ℚ
  passed : Bool
deriving DecidableEq, Repr

/-- The persisted snapshot shape produced by `toState` / consumed by
`fromState`.  Fields a hand-written snapshot may omit are `Option`. -/
structure Snapshot where
  quizTitle : String
  currentIndex : Option Int
  answers : Option (List (String × Int))
  remainingSec : Option Int
  isFinished : Bool
deriving DecidableEq

/-- `class QuizEngine`: configuration plus the mutable session state.
`remainingSec` is `Option Int` because `fromState` can copy an absent
`quiz.timeLimitSec` into it via `??`. -/
structure QuizEngine where
  title : String
  timeLimitSec : Int
  passThreshold : ℚ
  questions : List Question
  currentIndex : Int
  answers : List (String × Int)
  remainingSec : Option Int
  isFinished : Bool
  _summary : Option Summary
deriving DecidableEq

/-- The `QuizEngine` constructor. -/
def QuizEngine.fromQuiz (quiz : QuizDef) : QuizEngine :=
  let tl := jsOrInt quiz.timeLimitSec 300
  { title := quiz.title
    timeLimitSec := tl
    passThreshold := jsOrRat quiz.passThreshold (7/10)
    questions := quiz.questions.map Question.ofData
    currentIndex := 0
    answers := []
    remainingSec := some tl
    isFinished := false
    _summary := none }

/-- `get length()`. -/
def QuizEngine.length (e : QuizEngine) : Nat := e.questions.length

/-- `get currentQuestion()`: `questions[currentIndex]`, `undefined` when the
cursor is out of range. -/
def QuizEngine.currentQuestion (e : QuizEngine) : Option Question :=
  if e.currentIndex < 0 then none else e.questions.get? e.currentIndex.toNat

/-- `next()`. -/
def QuizEngine.next (e : QuizEngine) : QuizEngine :=
  if e.currentIndex < (e.length : Int) - 1 then
    { e with currentIndex := e.currentIndex + 1 }
  else e

/-- `prev()`. -/
def QuizEngine.prev (e : QuizEngine) : QuizEngine :=
  if e.currentIndex > 0 then { e with currentIndex := e.currentIndex - 1 } else e

/-- `goTo(idx)`: the two sequential clamping conditionals of the source. -/
def QuizEngine.goTo (e : QuizEngine) (idx : Int) : QuizEngine :=
  let i1 := if idx < 0 then 0 else idx
  let i2 := if i1 ≥ (e.length : Int) then (e.length : Int) - 1 else i1
  { e with currentIndex := i2 }

/-- `select(optIdx)`. -/
def QuizEngine.select (e : QuizEngine) (optIdx : Int) : QuizEngine :=
  if e.isFinished then e
  else
    match e.currentQuestion with
    | none => e
    | some q =>
        if optIdx < 0 ∨ (q.options.length : Int) ≤ optIdx then e
        else { e with answers := setAns e.answers q.id optIdx }

/-- `getSelected()`. -/
def QuizEngine.getSelected (e : QuizEngine) : Option Int :=
  match e.currentQuestion with
  | none => none
  | some q => getAns e.answers q.id

/-- The scoring pass inside `finish()`: count correct answers, derive
`percent` (0 for an empty quiz) and `passed`. -/
def QuizEngine.score (e : QuizEngine) : Summary :=
  let correct := e.questions.countP (fun q => q.isCorrect (getAns e.answers q.id))
  let total := e.length
  let percent : ℚ := if total = 0 then 0 else (correct : ℚ) / (total : ℚ)
  { correct := correct
    total := total
    percent := percent
    passed := decide (e.passThreshold ≤ percent) }

/-- The non-cached path of `finish()`: compute the score, set `isFinished`,
cache the summary, return it. -/
def QuizEngine.finishCompute (e : QuizEngine) : Summary × QuizEngine :=
  let s := e.score
  (s, { e with isFinished := true, _summary := some s })

/-- `finish()`: return the cached summary when `isFinished && _summary`,
otherwise compute. -/
def QuizEngine.finish (e : QuizEngine) : Summary × QuizEngine :=
  match e._summary with
  | some s => if e.isFinished then (s, e) else e.finishCompute
  | none => e.finishCompute

/-- `tick()`. -/
def QuizEngine.tick (e : QuizEngine) : QuizEngine :=
  if e.isFinished then e
  else
    match e.remainingSec with
    | some r =>
        if 0 < r then
          let e1 := { e with remainingSec := some (r - 1) }
          if r - 1 ≤ 0 then (e1.finish).2 else e1
        else (e.finish).2
    | none => (e.finish).2

/-- `toState()`. -/
def QuizEngine.toState (e : QuizEngine) : Snapshot :=
  { quizTitle := e.title
    currentIndex := some e.currentIndex
    answers := some e.answers
    remainingSec := e.remainingSec
    isFinished := e.isFinished }

/-- `static fromState(quiz, state)`: fresh engine, then overlay the snapshot
only when it exists and its `quizTitle` matches.  `currentIndex` uses
`|| 0`, `answers` uses `|| {}` (absent only), `remainingSec` uses
`?? quiz.timeLimitSec` (the raw, undefaulted quiz field). -/
def QuizEngine.fromState (quiz : QuizDef) (state : Option Snapshot) : QuizEngine :=
  let eng := QuizEngine.fromQuiz quiz
  match state with
  | none => eng
  | some st =>
      if st.quizTitle ≠ quiz.title then eng
      else
        { eng with
          currentIndex := jsOrInt st.currentIndex 0
          answers := st.answers.getD []
          remainingSec := match st.remainingSec with
            | some r => some r
            | none => quiz.timeLimitSec
          isFinished := st.isFinished }

/-- The engine operations reachable through the public interface. -/
inductive Op where
  | next : Op
  | prev : Op
  | goTo (idx : Int) : Op
  | select (optIdx : Int) : Op
  | tick : Op
  | finish : Op
deriving DecidableEq, Repr

/-- Apply one operation to the engine state (for `finish`, keep the state). -/
def applyOp (e : QuizEngine) : Op → QuizEngine
  | Op.next => e.next
  | Op.prev => e.prev
  | Op.goTo idx => e.goTo idx
  | Op.select i => e.select i
  | Op.tick => e.tick
  | Op.finish => (e.finish).2

/-- Apply a sequence of operations. -/
def applyOps (e : QuizEngine) (ops : List Op) : QuizEngine :=
  ops.foldl applyOp e

/-- Every engine the program can hold: initialised fresh or from a stored
snapshot (`fromState quiz none` is the fresh engine), then driven by any
sequence of operations. -/
def runEngine (quiz : QuizDef) (st : Option Snapshot) (ops : List Op) : QuizEngine :=
  applyOps (QuizEngine.fromState quiz st) ops

/-- Engines started fresh from a quiz definition. -/
def runFresh (quiz : QuizDef) (ops : List Op) : QuizEngine :=
  applyOps (QuizEngine.fromQuiz quiz) ops

/-- The two-question demo quiz of the scoring scenario: correct indices 1
and 0, pass threshold one half. -/
def demoQuiz : QuizDef :=
  { title := "Demo"
    timeLimitSec := some 60
    passThreshold := some (1/2)
    questions :=
      [ { id := "q1", text := "Q1", options := ["a", "b"], correctIndex := 1, topic := none },
        { id := "q2", text := "Q2", options := ["a", "b"], correctIndex := 0, topic := none } ] }

/-- A one-second quiz for the timeout scenario. -/
def timedQuiz : QuizDef :=
  { title := "Timed"
    timeLimitSec := some 1
    passThreshold := some (1/2)
    questions :=
      [ { id := "q1", text := "Q1", options := ["a", "b"], correctIndex := 1, topic := none } ] }

/-- A quiz with no questions. -/
def emptyQuiz : QuizDef :=
  { title := "Empty"
    timeLimitSec := some 10
    passThreshold := some (1/2)
    questions := [] }

/-- A quiz whose declared pass threshold is the in-range but falsy value 0. -/
def zeroThresholdQuiz : QuizDef :=
  { title := "Zero"
    timeLimitSec := some 60
    passThreshold := some 0
    questions :=
      [ { id := "q1", text := "Q1", options := ["a", "b"], correctIndex := 1, topic := none } ] }

/-- A snapshot whose recorded title matches none of the demo quizzes. -/
def otherSnapshot : Snapshot :=
  { quizTitle := "Other"
    currentIndex := some 1
    answers := some [("q1", 1)]
    remainingSec := some 5
    isFinished := true }

/-! ## Helper lemmas about `finish` -/

theorem finishCompute_fst (e : QuizEngine) : (e.finishCompute).1 = e.score := rfl

theorem finishCompute_snd (e : QuizEngine) :
    (e.finishCompute).2 = { e with isFinished := true, _summary := some e.score } := rfl

theorem finish_of_cached (e : QuizEngine) (s : Summary)
    (h1 : e.isFinished = true) (h2 : e._summary = some s) : e.finish = (s, e) := by
  simp [QuizEngine.finish, h1, h2]

theorem finish_of_no_cache (e : QuizEngine) (h : e._summary = none) :
    e.finish = e.finishCompute := by
  simp [QuizEngine.finish, h]

theorem finish_of_active (e : QuizEngine) (h : e.isFinished = false) :
    e.finish = e.finishCompute := by
  rcases hs : e._summary with _ | s <;> simp [QuizEngine.finish, hs, h]

theorem finish_snd_isFinished (e : QuizEngine) : ((e.finish).2).isFinished = true := by
  rcases hs : e._summary with _ | s
  · simp [QuizEngine.finish, hs, QuizEngine.finishCompute]
  · cases hf : e.isFinished <;>
      simp [QuizEngine.finish, hs, hf, QuizEngine.finishCompute]

theorem finish_snd_frame (e : QuizEngine) :
    ((e.finish).2).answers = e.answers ∧
    ((e.finish).2).currentIndex = e.currentIndex ∧
    ((e.finish).2).remainingSec = e.remainingSec ∧
    ((e.finish).2).questions = e.questions ∧
    ((e.finish).2).title = e.title ∧
    ((e.finish).2).timeLimitSec = e.timeLimitSec ∧
    ((e.finish).2).passThreshold = e.passThreshold := by
  rcases hs : e._summary with _ | s
  · simp [QuizEngine.finish, hs, QuizEngine.finishCompute]
  · cases hf : e.isFinished <;>
      simp [QuizEngine.finish, hs, hf, QuizEngine.finishCompute]

theorem finish_snd_cache (e : QuizEngine) :
    ((e.finish).2)._summary = some ((e.finish).1) := by
  rcases hs : e._summary with _ | s
  · simp [QuizEngine.finish, hs, QuizEngine.finishCompute]
  · cases hf : e.isFinished <;>
      simp [QuizEngine.finish, hs, hf, QuizEngine.finishCompute]

theorem score_set_currentIndex (e : QuizEngine) (i : Int) :
    ({ e with currentIndex := i } : QuizEngine).score = e.score := rfl

theorem score_set_remainingSec (e : QuizEngine) (r : Option Int) :
    ({ e with remainingSec := r } : QuizEngine).score = e.score := rfl

theorem score_set_flags (e : QuizEngine) (b : Bool) (s : Option Summary) :
    ({ e with isFinished := b, _summary := s } : QuizEngine).score = e.score := rfl

/-! ## Claimed properties -/

/-- Claim C10: navigation is pure cursor movement: next, prev and goTo leave
the answers mapping, the remaining time, the finished flag, the cached
summary, the question list and the configuration unchanged. -/
theorem nav_frame_spec (e : QuizEngine) (idx : Int) :
    ((e.next).answers = e.answers ∧ (e.next).remainingSec = e.remainingSec ∧
      (e.next).isFinished = e.isFinished ∧ (e.next)._summary = e._summary ∧
      (e.next).questions = e.questions ∧ (e.next).title = e.title ∧
      (e.next).timeLimitSec = e.timeLimitSec ∧ (e.next).passThreshold = e.passThreshold) ∧
    ((e.prev).answers = e.answers ∧ (e.prev).remainingSec = e.remainingSec ∧
      (e.prev).isFinished = e.isFinished ∧ (e.prev)._summary = e._summary ∧
      (e.prev).questions = e.questions ∧ (e.prev).title = e.title ∧
      (e.prev).timeLimitSec = e.timeLimitSec ∧ (e.prev).passThreshold = e.passThreshold) ∧
    ((e.goTo idx).answers = e.answers ∧ (e.goTo idx).remainingSec = e.remainingSec ∧
      (e.goTo idx).isFinished = e.isFinished ∧ (e.goTo idx)._summary = e._summary ∧
      (e.goTo idx).questions = e.questions ∧ (e.goTo idx).title = e.title ∧
      (e.goTo idx).timeLimitSec = e.timeLimitSec ∧
      (e.goTo idx).passThreshold = e.passThreshold) := by
  refine ⟨?_, ?_, ?_⟩
  · unfold QuizEngine.next
    split <;> exact ⟨rfl, rfl, rfl, rfl, rfl, rfl, rfl, rfl⟩
  · unfold QuizEngine.prev
    split <;> exact ⟨rfl, rfl, rfl, rfl, rfl, rfl, rfl, rfl⟩
  · exact ⟨rfl, rfl, rfl, rfl, rfl, rfl, rfl, rfl⟩

/-- Claim C4: Finished is terminal: once the finished flag is set, every
engine operation leaves it set. -/
theorem finished_terminal (e : QuizEngine) (op : Op) (h : e.isFinished = true) :
    (applyOp e op).isFinished = true := by
  cases op with
  | next =>
      show (e.next).isFinished = true
      unfold QuizEngine.next
      split <;> exact h
  | prev =>
      show (e.prev).isFinished = true
      unfold QuizEngine.prev
      split <;> exact h
  | goTo idx => exact h
  | select i =>
      show (e.select i).isFinished = true
      simp [QuizEngine.select, h]
  | tick =>
      show (e.tick).isFinished = true
      simp [QuizEngine.tick, h]
  | finish => exact finish_snd_isFinished e

/-- Witness for C4 at a concretely finished engine and the next operation. -/
theorem finished_terminal_witness :
    (applyOp (((QuizEngine.fromQuiz demoQuiz).finish).2) Op.next).isFinished = true :=
  finished_terminal (((QuizEngine.fromQuiz demoQuiz).finish).2) Op.next (by decide)

/-- Claim C9: finish called twice returns equal summaries (the second call
is served from the cache) and neither call changes answers or currentIndex. -/
theorem finish_twice_spec (e : QuizEngine) :
    (((e.finish).2).finish).1 = (e.finish).1 ∧
    ((e.finish).2).answers = e.answers ∧
    ((e.finish).2).currentIndex = e.currentIndex ∧
    ((((e.finish).2).finish).2).answers = e.answers ∧
    ((((e.finish).2).finish).2).currentIndex = e.currentIndex := by
  have h1 := finish_snd_isFinished e
  have h2 := finish_snd_cache e
  have h3 := finish_of_cached ((e.finish).2) ((e.finish).1) h1 h2
  have hf := finish_snd_frame e
  refine ⟨?_, hf.1, hf.2.1, ?_, ?_⟩
  · rw [h3]
  · rw [h3]; exact hf.1
  · rw [h3]; exact hf.2.1

/-- Claim C8: fromState with a missing snapshot, or with a snapshot whose
recorded title differs from the quiz title, yields exactly the fresh engine. -/
theorem fromState_mismatch_fresh (quiz : QuizDef) (st : Snapshot)
    (h : st.quizTitle ≠ quiz.title) :
    QuizEngine.fromState quiz (some st) = QuizEngine.fromQuiz quiz ∧
    QuizEngine.fromState quiz none = QuizEngine.fromQuiz quiz := by
  constructor
  · simp [QuizEngine.fromState, h]
  · rfl

/-- Witness for C8 on the demo quiz and a mismatching snapshot. -/
theorem fromState_mismatch_witness :
    QuizEngine.fromState demoQuiz (some otherSnapshot) = QuizEngine.fromQuiz demoQuiz ∧
    QuizEngine.fromState demoQuiz none = QuizEngine.fromQuiz demoQuiz :=
  fromState_mismatch_fresh demoQuiz otherSnapshot (by decide)

/-- Claim C7 counterexample: on the zero-question quiz, goTo 0 sets the
cursor to -1, while the claimed clamp formula gives 0. -/
theorem goTo_clamp_cex :
    ¬ (((QuizEngine.fromQuiz emptyQuiz).goTo 0).currentIndex
        = max 0 (min 0 (((QuizEngine.fromQuiz emptyQuiz).length : Int) - 1))) := by
  decide

/-- Claim C7 (amended): when the quiz has at least one question, goTo idx
sets the cursor to max 0 (min idx (length - 1)); with zero questions the two
sequential clamps of the source set it to -1.  All other state is unchanged. -/
theorem goTo_clamp_spec (e : QuizEngine) (idx : Int) :
    (0 < e.length →
      (e.goTo idx).currentIndex = max 0 (min idx ((e.length : Int) - 1))) ∧
    (e.length = 0 → (e.goTo idx).currentIndex = -1) ∧
    (e.goTo idx).answers = e.answers ∧
    (e.goTo idx).remainingSec = e.remainingSec ∧
    (e.goTo idx).isFinished = e.isFinished ∧
    (e.goTo idx)._summary = e._summary ∧
    (e.goTo idx).questions = e.questions ∧
    (e.goTo idx).title = e.title ∧
    (e.goTo idx).timeLimitSec = e.timeLimitSec ∧
    (e.goTo idx).passThreshold = e.passThreshold := by
  have hcur : (e.goTo idx).currentIndex
      = (if (if idx < 0 then 0 else idx) ≥ (e.length : Int) then (e.length : Int) - 1
         else if idx < 0 then 0 else idx) := rfl
  refine ⟨?_, ?_, rfl, rfl, rfl, rfl, rfl, rfl, rfl, rfl⟩
  · intro h
    rw [hcur]
    split_ifs <;> omega
  · intro h
    rw [hcur, h]
    split_ifs <;> omega

/-- Witness for the amended C7 on the two-question demo quiz. -/
theorem goTo_clamp_witness :
    ((QuizEngine.fromQuiz demoQuiz).goTo 5).currentIndex
      = max 0 (min 5 (((QuizEngine.fromQuiz demoQuiz).length : Int) - 1)) :=
  (goTo_clamp_spec (QuizEngine.fromQuiz demoQuiz) 5).1 (by decide)

/-- Claim C6 counterexample: a quiz declaring the in-range threshold 0 gets
engine threshold 0.7, so the configuration is not copied verbatim. -/
theorem ctor_verbatim_cex :
    ¬ (some (QuizEngine.fromQuiz zeroThresholdQuiz).passThreshold
        = zeroThresholdQuiz.passThreshold) := by
  have h1 : (QuizEngine.fromQuiz zeroThresholdQuiz).passThreshold = 7/10 := by
    show jsOrRat (some 0) (7/10) = 7/10
    simp [jsOrRat]
  rw [h1]
  show ¬ (some (7/10 : ℚ) = some 0)
  intro h
  have h2 : (7/10 : ℚ) = 0 := Option.some.inj h
  norm_num at h2

/-- Claim C6 (amended): the constructor copies the title verbatim, copies
timeLimitSec and passThreshold when present and nonzero but substitutes the
defaults 300 and 0.7 for an absent or zero (falsy) value, wraps the
questions, and initialises currentIndex 0, empty answers,
remainingSec = timeLimitSec (after defaulting), isFinished false, no cache. -/
theorem ctor_defaults_spec (quiz : QuizDef) :
    (QuizEngine.fromQuiz quiz).title = quiz.title ∧
    (∀ t : Int, quiz.timeLimitSec = some t → t ≠ 0 →
        (QuizEngine.fromQuiz quiz).timeLimitSec = t) ∧
    ((quiz.timeLimitSec = none ∨ quiz.timeLimitSec = some 0) →
        (QuizEngine.fromQuiz quiz).timeLimitSec = 300) ∧
    (∀ p : ℚ, quiz.passThreshold = some p → p ≠ 0 →
        (QuizEngine.fromQuiz quiz).passThreshold = p) ∧
    ((quiz.passThreshold = none ∨ quiz.passThreshold = some 0) →
        (QuizEngine.fromQuiz quiz).passThreshold = 7/10) ∧
    (QuizEngine.fromQuiz quiz).questions = quiz.questions.map Question.ofData ∧
    (QuizEngine.fromQuiz quiz).currentIndex = 0 ∧
    (QuizEngine.fromQuiz quiz).answers = [] ∧
    (QuizEngine.fromQuiz quiz).remainingSec
      = some (QuizEngine.fromQuiz quiz).timeLimitSec ∧
    (QuizEngine.fromQuiz quiz).isFinished = false ∧
    (QuizEngine.fromQuiz quiz)._summary = none := by
  refine ⟨rfl, ?_, ?_, ?_, ?_, rfl, rfl, rfl, rfl, rfl, rfl⟩
  · intro t ht hne
    show jsOrInt quiz.timeLimitSec 300 = t
    rw [ht]
    simp [jsOrInt, hne]
  · intro h
    show jsOrInt quiz.timeLimitSec 300 = 300
    rcases h with h | h <;> rw [h] <;> simp [jsOrInt]
  · intro p hp hne
    show jsOrRat quiz.passThreshold (7/10) = p
    rw [hp]
    simp [jsOrRat, hne]
  · intro h
    show jsOrRat quiz.passThreshold (7/10) = 7/10
    rcases h with h | h <;> rw [h] <;> simp [jsOrRat]

/-- Witness for the amended C6 on the demo quiz. -/
theorem ctor_defaults_witness :
    (QuizEngine.fromQuiz demoQuiz).timeLimitSec = 60 :=
  (ctor_defaults_spec demoQuiz).2.1 60 rfl (by decide)

/-! ## Lemmas about the answers map -/

theorem getAns_setAns_same (l : List (String × Int)) (k : String) (v : Int) :
    getAns (setAns l k v) k = some v := by
  induction l with
  | nil => simp [setAns, getAns]
  | cons p rest ih =>
      obtain ⟨k1, v1⟩ := p
      by_cases h : k1 = k
      · subst h
        simp [setAns, getAns]
      · simp [setAns, getAns, h, ih]

theorem getAns_setAns_other (l : List (String × Int)) (k k2 : String) (v : Int)
    (h : k2 ≠ k) : getAns (setAns l k v) k2 = getAns l k2 := by
  induction l with
  | nil => simp [setAns, getAns, Ne.symm h]
  | cons p rest ih =>
      obtain ⟨k1, v1⟩ := p
      by_cases h1 : k1 = k
      · subst h1
        simp [setAns, getAns, Ne.symm h]
      · simp [setAns, getAns, h1, ih]

/-- Claim C5: while active, a selection with an in-range option index is
recorded under the current question id (overwriting any prior one) and
nothing else changes; while finished, or with an out-of-range index, the
whole engine state is unchanged. -/
theorem select_spec (e : QuizEngine) (q : Question) (i : Int)
    (hq : e.currentQuestion = some q) :
    (e.isFinished = false → 0 ≤ i → i < (q.options.length : Int) →
      (e.select i).answers = setAns e.answers q.id i ∧
      getAns (e.select i).answers q.id = some i ∧
      (∀ id2 : String, id2 ≠ q.id →
          getAns (e.select i).answers id2 = getAns e.answers id2) ∧
      (e.select i).currentIndex = e.currentIndex ∧
      (e.select i).remainingSec = e.remainingSec ∧
      (e.select i).isFinished = e.isFinished ∧
      (e.select i)._summary = e._summary ∧
      (e.select i).questions = e.questions) ∧
    ((e.isFinished = true ∨ i < 0 ∨ (q.options.length : Int) ≤ i) →
      e.select i = e) := by
  constructor
  · intro hact h0 hlt
    have hne : ¬ (i < 0 ∨ (q.options.length : Int) ≤ i) := by omega
    have hsel : e.select i = { e with answers := setAns e.answers q.id i } := by
      unfold QuizEngine.select
      rw [hq]
      simp [hact, hne]
    rw [hsel]
    refine ⟨rfl, getAns_setAns_same _ _ _, ?_, rfl, rfl, rfl, rfl, rfl⟩
    intro id2 hid
    exact getAns_setAns_other _ _ _ _ hid
  · intro hcase
    rcases hcase with hfin | hrange
    · unfold QuizEngine.select
      simp [hfin]
    · by_cases hf : e.isFinished
      · unfold QuizEngine.select
        simp [hf]
      · unfold QuizEngine.select
        rw [hq]
        simp [hf, hrange]

/-- Witness for C5: selecting option 1 on the first demo question records it. -/
theorem select_spec_witness :
    getAns ((QuizEngine.fromQuiz demoQuiz).select 1).answers "q1" = some 1 :=
  ((select_spec (QuizEngine.fromQuiz demoQuiz)
      { id := "q1", text := "Q1", options := ["a", "b"], correctIndex := 1, topic := none }
      1 (by decide)).1 rfl (by decide) (by decide)).2.1

/-- Reduction of tick in the active, positive-time case. -/
theorem tick_reduce_pos (e : QuizEngine) (r : Int) (hf : e.isFinished = false)
    (hr : e.remainingSec = some r) (h1 : 0 < r) :
    e.tick = (if r - 1 ≤ 0
      then (({ e with remainingSec := some (r - 1) } : QuizEngine).finish).2
      else { e with remainingSec := some (r - 1) }) := by
  unfold QuizEngine.tick
  rw [hr]
  simp [hf, h1]

/-- Claim C3: while active with positive remaining time, tick decrements by
exactly one and finishes via scoring exactly when the decrement reaches 0;
while active with no remaining time it triggers scoring immediately without
a decrement; when already finished it changes nothing (the re-triggered
scoring is served from the cache); and on the one-second quiz a single tick
leaves remaining 0, the finished flag set and a summary computed. -/
theorem tick_spec (e : QuizEngine) (r : Int) :
    (e.isFinished = false → e.remainingSec = some r → 0 < r →
      (e.tick).remainingSec = some (r - 1)) ∧
    (e.isFinished = false → e.remainingSec = some r → 1 < r →
      e.tick = { e with remainingSec := some (r - 1) }) ∧
    (e.isFinished = false → e.remainingSec = some r → r = 1 →
      (e.tick).remainingSec = some 0 ∧ (e.tick).isFinished = true ∧
      (e.tick)._summary = some (({ e with remainingSec := some 0 } : QuizEngine).score)) ∧
    (e.isFinished = false → e.remainingSec = some r → r ≤ 0 →
      e.tick = (e.finish).2 ∧ (e.tick).remainingSec = some r) ∧
    (e.isFinished = false → e.remainingSec = none → e.tick = (e.finish).2) ∧
    (e.isFinished = true → e.tick = e) ∧
    (((QuizEngine.fromQuiz timedQuiz).tick).remainingSec = some 0 ∧
      ((QuizEngine.fromQuiz timedQuiz).tick).isFinished = true ∧
      (((QuizEngine.fromQuiz timedQuiz).tick)._summary).isSome = true) := by
  refine ⟨?_, ?_, ?_, ?_, ?_, ?_, by decide, by decide, by decide⟩
  · intro hf hr h1
    by_cases h2 : r - 1 ≤ 0
    · rw [tick_reduce_pos e r hf hr h1, if_pos h2, (finish_snd_frame _).2.2.1]
    · rw [tick_reduce_pos e r hf hr h1, if_neg h2]
  · intro hf hr h1
    rw [tick_reduce_pos e r hf hr (by omega), if_neg (by omega)]
  · intro hf hr h1
    subst h1
    have hred : e.tick = (({ e with remainingSec := some 0 } : QuizEngine).finish).2 := by
      rw [tick_reduce_pos e 1 hf hr (by omega), if_pos (by omega)]
      norm_num
    rw [hred]
    have hact : ({ e with remainingSec := some 0 } : QuizEngine).isFinished = false := hf
    refine ⟨(finish_snd_frame _).2.2.1, finish_snd_isFinished _, ?_⟩
    rw [finish_of_active _ hact]
    rfl
  · intro hf hr h2
    have hnot : ¬ 0 < r := by omega
    have hred : e.tick = (e.finish).2 := by
      unfold QuizEngine.tick
      rw [hr]
      simp [hf, hnot]
    exact ⟨hred, by rw [hred, (finish_snd_frame e).2.2.1, hr]⟩
  · intro hf hrn
    unfold QuizEngine.tick
    rw [hrn]
    simp [hf]
  · intro hfin
    simp [QuizEngine.tick, hfin]

/-- Witness for C3: one tick on the fresh demo engine decrements 60 to 59. -/
theorem tick_spec_witness :
    ((QuizEngine.fromQuiz demoQuiz).tick).remainingSec = some 59 :=
  (tick_spec (QuizEngine.fromQuiz demoQuiz) 60).1 rfl rfl (by decide)

/-! ## Cache invariant for reachable engines -/

/-- When a summary is cached, the finished flag is set and the cache equals
the scoring pass on the current state. -/
def cacheInv (e : QuizEngine) : Prop :=
  e._summary = none ∨ (e.isFinished = true ∧ e._summary = some e.score)

theorem select_of_finished (e : QuizEngine) (i : Int) (hf : e.isFinished = true) :
    e.select i = e := by
  unfold QuizEngine.select
  simp [hf]

theorem tick_of_finished (e : QuizEngine) (hf : e.isFinished = true) : e.tick = e := by
  simp [QuizEngine.tick, hf]

theorem select_summary (e : QuizEngine) (i : Int) :
    (e.select i)._summary = e._summary := by
  unfold QuizEngine.select
  split
  · rfl
  · split
    · rfl
    · split <;> rfl

theorem fromState_summary_none (quiz : QuizDef) (st : Option Snapshot) :
    (QuizEngine.fromState quiz st)._summary = none := by
  rcases st with _ | s
  · rfl
  · simp only [QuizEngine.fromState]
    split <;> rfl

theorem cacheInv_fromState (quiz : QuizDef) (st : Option Snapshot) :
    cacheInv (QuizEngine.fromState quiz st) :=
  Or.inl (fromState_summary_none quiz st)

theorem cacheInv_finish_snd (e : QuizEngine) (h : cacheInv e) :
    cacheInv ((e.finish).2) := by
  rcases h with h | ⟨hf, hs⟩
  · rw [finish_of_no_cache e h, finishCompute_snd]
    exact Or.inr ⟨rfl, rfl⟩
  · rw [finish_of_cached e e.score hf hs]
    exact Or.inr ⟨hf, hs⟩

theorem cacheInv_next (e : QuizEngine) (h : cacheInv e) : cacheInv (e.next) := by
  unfold QuizEngine.next
  split
  · rcases h with h | ⟨hf, hs⟩
    · exact Or.inl h
    · exact Or.inr ⟨hf, hs⟩
  · exact h

theorem cacheInv_prev (e : QuizEngine) (h : cacheInv e) : cacheInv (e.prev) := by
  unfold QuizEngine.prev
  split
  · rcases h with h | ⟨hf, hs⟩
    · exact Or.inl h
    · exact Or.inr ⟨hf, hs⟩
  · exact h

theorem cacheInv_select (e : QuizEngine) (i : Int) (h : cacheInv e) :
    cacheInv (e.select i) := by
  by_cases hf : e.isFinished
  · rw [select_of_finished e i hf]
    exact h
  · left
    rw [select_summary]
    rcases h with h | ⟨hfin, _⟩
    · exact h
    · exact absurd hfin hf

theorem cacheInv_tick (e : QuizEngine) (h : cacheInv e) : cacheInv (e.tick) := by
  by_cases hf : e.isFinished
  · rw [tick_of_finished e hf]
    exact h
  · have hf2 : e.isFinished = false := by simpa using hf
    rcases hr : e.remainingSec with _ | r
    · have hred : e.tick = (e.finish).2 := by
        unfold QuizEngine.tick
        rw [hr]
        simp [hf2]
      rw [hred]
      exact cacheInv_finish_snd e h
    · by_cases hpos : 0 < r
      · rw [tick_reduce_pos e r hf2 hr hpos]
        split
        · refine cacheInv_finish_snd _ ?_
          rcases h with h | ⟨hfin, _⟩
          · exact Or.inl h
          · exact absurd hfin hf
        · rcases h with h | ⟨hfin, hs⟩
          · exact Or.inl h
          · exact Or.inr ⟨hfin, hs⟩
      · have hred : e.tick = (e.finish).2 := by
          unfold QuizEngine.tick
          rw [hr]
          simp [hf2, hpos]
        rw [hred]
        exact cacheInv_finish_snd e h

theorem cacheInv_applyOp (e : QuizEngine) (op : Op) (h : cacheInv e) :
    cacheInv (applyOp e op) := by
  cases op with
  | next => exact cacheInv_next e h
  | prev => exact cacheInv_prev e h
  | goTo idx =>
      show cacheInv (e.goTo idx)
      rcases h with h | ⟨hf, hs⟩
      · exact Or.inl h
      · exact Or.inr ⟨hf, hs⟩
  | select i => exact cacheInv_select e i h
  | tick => exact cacheInv_tick e h
  | finish => exact cacheInv_finish_snd e h

theorem cacheInv_applyOps (e : QuizEngine) (ops : List Op) (h : cacheInv e) :
    cacheInv (applyOps e ops) := by
  induction ops generalizing e with
  | nil => exact h
  | cons op rest ih => exact ih (applyOp e op) (cacheInv_applyOp e op h)

theorem finish_fst_eq_score (e : QuizEngine) (h : cacheInv e) :
    (e.finish).1 = e.score := by
  rcases h with h | ⟨hf, hs⟩
  · rw [finish_of_no_cache e h, finishCompute_fst]
  · rw [finish_of_cached e e.score hf hs]

/-- The two-question scenario evaluated: select 1 (correct), next, select 1
(incorrect), finish: summary is correct 1, total 2, percent one half, passed. -/
theorem demo_scenario_summary :
    ((runEngine demoQuiz none [Op.select 1, Op.next, Op.select 1]).finish).1
      = { correct := 1, total := 2, percent := 1/2, passed := true } := by
  have hnone : (runEngine demoQuiz none [Op.select 1, Op.next, Op.select 1])._summary
      = none := rfl
  rw [finish_of_no_cache _ hnone, finishCompute_fst]
  have hpt : (runEngine demoQuiz none [Op.select 1, Op.next, Op.select 1]).passThreshold
      = 1/2 := by
    show (if (1/2 : ℚ) = 0 then (7 : ℚ)/10 else 1/2) = 1/2
    rw [if_neg (by norm_num)]
  have hcor : (runEngine demoQuiz none [Op.select 1, Op.next, Op.select 1]).score.correct
      = 1 := rfl
  have htot : (runEngine demoQuiz none [Op.select 1, Op.next, Op.select 1]).score.total
      = 2 := rfl
  have hper : (runEngine demoQuiz none [Op.select 1, Op.next, Op.select 1]).score.percent
      = 1/2 := by
    show (if (2 : Nat) = 0 then (0 : ℚ) else ((1 : Nat) : ℚ) / ((2 : Nat) : ℚ)) = 1/2
    rw [if_neg (by norm_num)]
    norm_num
  have hpass : (runEngine demoQuiz none [Op.select 1, Op.next, Op.select 1]).score.passed
      = true := by
    show decide
        ((runEngine demoQuiz none [Op.select 1, Op.next, Op.select 1]).passThreshold
          ≤ (runEngine demoQuiz none [Op.select 1, Op.next, Op.select 1]).score.percent)
      = true
    rw [hpt, hper]
    simp
  show Summary.mk
      (runEngine demoQuiz none [Op.select 1, Op.next, Op.select 1]).score.correct
      (runEngine demoQuiz none [Op.select 1, Op.next, Op.select 1]).score.total
      (runEngine demoQuiz none [Op.select 1, Op.next, Op.select 1]).score.percent
      (runEngine demoQuiz none [Op.select 1, Op.next, Op.select 1]).score.passed = _
  rw [hcor, htot, hper, hpass]

/-- Claim C1: for every engine the program can hold (fresh or rehydrated,
then driven by any operation sequence), finish returns the summary whose
correct field counts the questions whose recorded answer equals their
correctIndex, whose total is the question count, whose percent is
correct/total (0 when there are no questions), whose passed flag is the
threshold comparison, and the engine is finished afterwards; on the
two-question demo scenario the summary is correct 1, total 2, percent one
half, passed true. -/
theorem finish_summary_spec (quiz : QuizDef) (st : Option Snapshot) (ops : List Op) :
    ((runEngine quiz st ops).finish).1.correct
      = (runEngine quiz st ops).questions.countP
          (fun q => q.isCorrect (getAns (runEngine quiz st ops).answers q.id)) ∧
    ((runEngine quiz st ops).finish).1.total
      = (runEngine quiz st ops).questions.length ∧
    ((runEngine quiz st ops).finish).1.percent
      = (if (runEngine quiz st ops).questions.length = 0 then 0
         else (((runEngine quiz st ops).finish).1.correct : ℚ)
            / ((runEngine quiz st ops).questions.length : ℚ)) ∧
    ((runEngine quiz st ops).finish).1.passed
      = decide ((runEngine quiz st ops).passThreshold
          ≤ ((runEngine quiz st ops).finish).1.percent) ∧
    (((runEngine quiz st ops).finish).2).isFinished = true ∧
    ((runEngine demoQuiz none [Op.select 1, Op.next, Op.select 1]).finish).1
      = { correct := 1, total := 2, percent := 1/2, passed := true } := by
  have hinv : cacheInv (runEngine quiz st ops) :=
    cacheInv_applyOps _ _ (cacheInv_fromState quiz st)
  have hfst := finish_fst_eq_score _ hinv
  refine ⟨?_, ?_, ?_, ?_, finish_snd_isFinished _, demo_scenario_summary⟩
  · rw [hfst]
    rfl
  · rw [hfst]
    rfl
  · rw [hfst]
    rfl
  · rw [hfst]
    rfl

/-! ## Round-trip lemmas -/

theorem jsOrInt_some_zero (x : Int) : jsOrInt (some x) 0 = x := by
  show (if x = 0 then 0 else x) = x
  split
  · omega
  · rfl

/-- Every operation preserves the title and keeps remainingSec a number. -/
theorem applyOp_title_remaining (e : QuizEngine) (op : Op)
    (h1 : ((e.remainingSec).isSome) = true) :
    (applyOp e op).title = e.title ∧ (((applyOp e op).remainingSec).isSome) = true := by
  cases op with
  | next =>
      show (e.next).title = e.title ∧ (((e.next).remainingSec).isSome) = true
      unfold QuizEngine.next
      split <;> exact ⟨rfl, h1⟩
  | prev =>
      show (e.prev).title = e.title ∧ (((e.prev).remainingSec).isSome) = true
      unfold QuizEngine.prev
      split <;> exact ⟨rfl, h1⟩
  | goTo idx => exact ⟨rfl, h1⟩
  | select i =>
      constructor
      · show (e.select i).title = e.title
        unfold QuizEngine.select
        split
        · rfl
        · split
          · rfl
          · split <;> rfl
      · show (((e.select i).remainingSec).isSome) = true
        unfold QuizEngine.select
        split
        · exact h1
        · split
          · exact h1
          · split <;> exact h1
  | tick =>
      show (e.tick).title = e.title ∧ (((e.tick).remainingSec).isSome) = true
      by_cases hf : e.isFinished
      · rw [tick_of_finished e hf]
        exact ⟨rfl, h1⟩
      · have hf2 : e.isFinished = false := by simpa using hf
        rcases hr : e.remainingSec with _ | r
        · rw [hr] at h1
          simp at h1
        · by_cases hpos : 0 < r
          · rw [tick_reduce_pos e r hf2 hr hpos]
            split
            · refine ⟨(finish_snd_frame _).2.2.2.2.1, ?_⟩
              rw [(finish_snd_frame _).2.2.1]
              rfl
            · exact ⟨rfl, rfl⟩
          · have hred : e.tick = (e.finish).2 := by
              unfold QuizEngine.tick
              rw [hr]
              simp [hf2, hpos]
            rw [hred]
            refine ⟨(finish_snd_frame _).2.2.2.2.1, ?_⟩
            rw [(finish_snd_frame _).2.2.1, hr]
            rfl
  | finish =>
      show ((e.finish).2).title = e.title ∧ ((((e.finish).2).remainingSec).isSome) = true
      refine ⟨(finish_snd_frame _).2.2.2.2.1, ?_⟩
      rw [(finish_snd_frame _).2.2.1]
      exact h1

theorem applyOps_title_remaining (e : QuizEngine) (ops : List Op)
    (h1 : ((e.remainingSec).isSome) = true) :
    (applyOps e ops).title = e.title ∧ (((applyOps e ops).remainingSec).isSome) = true := by
  induction ops generalizing e with
  | nil => exact ⟨rfl, h1⟩
  | cons op rest ih =>
      have h := applyOp_title_remaining e op h1
      have h2 := ih (applyOp e op) h.2
      exact ⟨h2.1.trans h.1, h2.2⟩

/-- On a title-matching snapshot, fromState overlays the recorded fields. -/
theorem fromState_match (quiz : QuizDef) (st : Snapshot)
    (hm : st.quizTitle = quiz.title) :
    (QuizEngine.fromState quiz (some st)).currentIndex = jsOrInt st.currentIndex 0 ∧
    (QuizEngine.fromState quiz (some st)).answers = st.answers.getD [] ∧
    (QuizEngine.fromState quiz (some st)).remainingSec
      = (match st.remainingSec with
          | some r => some r
          | none => quiz.timeLimitSec) ∧
    (QuizEngine.fromState quiz (some st)).isFinished = st.isFinished := by
  have hnn : ¬ (st.quizTitle ≠ quiz.title) := by simp [hm]
  simp only [QuizEngine.fromState]
  rw [if_neg hnn]
  exact ⟨rfl, rfl, rfl, rfl⟩

/-- Claim C2: rehydrating from the serialized snapshot restores currentIndex,
answers, remainingSec and isFinished, for every engine built from a quiz
definition and driven by any sequence of operations. -/
theorem roundtrip_spec (quiz : QuizDef) (ops : List Op) :
    (QuizEngine.fromState quiz (some ((runFresh quiz ops).toState))).currentIndex
      = (runFresh quiz ops).currentIndex ∧
    (QuizEngine.fromState quiz (some ((runFresh quiz ops).toState))).answers
      = (runFresh quiz ops).answers ∧
    (QuizEngine.fromState quiz (some ((runFresh quiz ops).toState))).remainingSec
      = (runFresh quiz ops).remainingSec ∧
    (QuizEngine.fromState quiz (some ((runFresh quiz ops).toState))).isFinished
      = (runFresh quiz ops).isFinished := by
  have h0 : (((QuizEngine.fromQuiz quiz).remainingSec).isSome) = true := rfl
  have h := applyOps_title_remaining (QuizEngine.fromQuiz quiz) ops h0
  have htitle : (((runFresh quiz ops).toState).quizTitle) = quiz.title := h.1
  obtain ⟨r, hr⟩ : ∃ r, (runFresh quiz ops).remainingSec = some r := by
    rcases hrs : (runFresh quiz ops).remainingSec with _ | r
    · have h2 := h.2
      rw [show applyOps (QuizEngine.fromQuiz quiz) ops = runFresh quiz ops from rfl,
        hrs] at h2
      simp at h2
    · exact ⟨r, rfl⟩
  have hm := fromState_match quiz ((runFresh quiz ops).toState) htitle
  refine ⟨?_, ?_, ?_, ?_⟩
  · rw [hm.1]
    exact jsOrInt_some_zero _
  · rw [hm.2.1]
    rfl
  · have hr2 : (((runFresh quiz ops).toState).remainingSec) = some r := hr
    rw [hm.2.2.1, hr2]
    exact hr.symm
  · rw [hm.2.2.2]
    rfl
